import Mathlib

/-
Verification of the termdash layout-and-rendering core against its
natural-language specification.

The development shallowly embeds two parts of the repository:
  * the text layout engine (draw.Text) exercised by the TestText table in
    src/unnamed/part_000, and
  * the container tree drawer in src/container/draw.go.

Machine integers are modelled as Lean Int (Go int is 64-bit; none of the
verified properties involve overflow).  Cell writes performed on a canvas
are modelled as an explicit list of (x, y, rune) writes; fallible
operations return Except or pair their draw trace with an optional error.
-/

namespace Termdash

instance {ε α : Type} [DecidableEq ε] [DecidableEq α] : DecidableEq (Except ε α) :=
  fun a b =>
    match a, b with
    | .ok x, .ok y =>
      if h : x = y then .isTrue (by rw [h])
      else .isFalse (by intro hh; injection hh; contradiction)
    | .error x, .error y =>
      if h : x = y then .isTrue (by rw [h])
      else .isFalse (by intro hh; injection hh; contradiction)
    | .ok _, .error _ => .isFalse (by intro h; cases h)
    | .error _, .ok _ => .isFalse (by intro h; cases h)

/-! ## Text layout engine -/

/-- Errors of the text layout engine, per spec section 7. -/
inductive TextErr where
  | outOfBounds
  | invalidOption
  | textOverflow
deriving DecidableEq, Repr

/-- One cell write: rune `r` placed with its leftmost column at `x` on row
`y`.  A full-width rune written at `x` additionally claims column `x+1` as
its continuation cell. -/
structure CellWrite where
  x : Int
  y : Int
  r : Char
deriving DecidableEq, Repr

/-- Modelled from the spec: the East-Asian-width classification used by the
text engine (runewidth) is an external dependency absent from src; spec
section 9 leaves the exact table open.  We classify a rune as full-width
(display width 2) when its code point lies in the standard East-Asian Wide /
Fullwidth blocks, which covers every rune exercised by the in-repo tests;
all other runes are half-width (display width 1). -/
def runeWidth (c : Char) : Int :=
  let n := c.toNat
  if (0x1100 ≤ n ∧ n ≤ 0x115F) ∨ (0x2E80 ≤ n ∧ n ≤ 0xA4CF) ∨
     (0xAC00 ≤ n ∧ n ≤ 0xD7A3) ∨ (0xF900 ≤ n ∧ n ≤ 0xFAFF) ∨
     (0xFE30 ≤ n ∧ n ≤ 0xFE4F) ∨ (0xFF00 ≤ n ∧ n ≤ 0xFF60) ∨
     (0xFFE0 ≤ n ∧ n ≤ 0xFFE6) then 2 else 1

/-- Total display width of a text, rune widths summed. -/
def textWidth : List Char → Int
  | [] => 0
  | c :: cs => runeWidth c + textWidth cs

/-- Go constant OverrunModeStrict (iota value 0). -/
def overrunModeStrict : Int := 0

/-- Go constant OverrunModeTrim (iota value 1). -/
def overrunModeTrim : Int := 1

/-- Go constant OverrunModeThreeDot (iota value 2). -/
def overrunModeThreeDot : Int := 2

/-- The ellipsis rune written by OverrunModeThreeDot. -/
def ellipsisRune : Char := '…'

/-- Writes every rune of the text starting at column `x` on row `y`, each
rune advancing the cursor by its display width. -/
def drawRunes (y : Int) : Int → List Char → List CellWrite
  | _, [] => []
  | x, r :: rs => ⟨x, y, r⟩ :: drawRunes y (x + runeWidth r) rs

/-- Writes runes starting at column `x` on row `y` as long as each rune fits
fully left of the exclusive boundary `bound`; stops at the first rune that
does not fit (the whole rune is dropped, never partially drawn). -/
def trimRunes (bound y : Int) : Int → List Char → List CellWrite
  | _, [] => []
  | x, r :: rs =>
    if x + runeWidth r ≤ bound then
      ⟨x, y, r⟩ :: trimRunes bound y (x + runeWidth r) rs
    else []

/-- Modelled from the spec: the body of draw.Text after option validation
(the implementation is absent from src; only its tests are present).  Spec
section 4.2 steps 1 and 4-6: empty text succeeds with no writes; an
unrecognized overrun mode fails InvalidOption; text fitting within the
boundary is written in full; on overrun Strict fails TextOverflow, Trim
writes the runes that fit fully, and ThreeDot reserves the final column
for the ellipsis (writing nothing when the boundary leaves no room even
for the ellipsis). -/
def textRun (bound y x om : Int) (text : List Char) : Except TextErr (List CellWrite) :=
  if text = [] then .ok []
  else if ¬(om = overrunModeStrict ∨ om = overrunModeTrim ∨ om = overrunModeThreeDot) then
    .error .invalidOption
  else if x + textWidth text ≤ bound then .ok (drawRunes y x text)
  else if om = overrunModeStrict then .error .textOverflow
  else if om = overrunModeTrim then .ok (trimRunes bound y x text)
  else if bound - x < 1 then .ok []
  else .ok (trimRunes (bound - 1) y x text ++ [⟨bound - 1, y, ellipsisRune⟩])

/-- The effective right boundary of the text: the canvas width when MaxX is
unset (Go zero value 0), otherwise min(width, MaxX); spec section 4.2
step 3. -/
def effectiveBound (w maxX : Int) : Int :=
  if maxX = 0 then w else min w maxX

/-- Modelled from the spec: draw.Text (the implementation is absent from
src; only its tests are present).  The canvas is `w` columns by `h` rows
with origin (0,0); `text` is drawn from start point `(sx, sy)` under
overrun mode `om` and optional MaxX (`maxX = 0` means unset).  Validation
order follows spec section 4.2 as constrained by the in-repo TestText
table: a start point outside the canvas fails OutOfBounds and a malformed
MaxX fails InvalidOption even for empty text (tests at part_000 lines
37-45 and 261-286), after which empty text succeeds with no writes. -/
def Text (w h : Int) (text : List Char) (sx sy om maxX : Int) :
    Except TextErr (List CellWrite) :=
  if ¬(0 ≤ sx ∧ sx < w ∧ 0 ≤ sy ∧ sy < h) then .error .outOfBounds
  else if maxX ≠ 0 ∧ (maxX ≤ 0 ∨ w < maxX) then .error .invalidOption
  else textRun (effectiveBound w maxX) sy sx om text

/-! ## Container tree drawer (src/container/draw.go) -/

/-- Go image.Rectangle: an axis-aligned rectangle with exclusive maximum. -/
structure Rect where
  minX : Int
  minY : Int
  maxX : Int
  maxY : Int
deriving DecidableEq, Repr

/-- Go image.Rectangle.Dx. -/
def Rect.Dx (r : Rect) : Int := r.maxX - r.minX

/-- Go image.Rectangle.Dy. -/
def Rect.Dy (r : Rect) : Int := r.maxY - r.minY

/-- Go image.ZR, the zero rectangle. -/
def Rect.zero : Rect := ⟨0, 0, 0, 0⟩

/-- Horizontal translation of a rectangle (width and height preserved). -/
def Rect.translateX (r : Rect) (d : Int) : Rect := ⟨r.minX + d, r.minY, r.maxX + d, r.maxY⟩

/-- Vertical translation of a rectangle (width and height preserved). -/
def Rect.translateY (r : Rect) (d : Int) : Rect := ⟨r.minX, r.minY + d, r.maxX, r.maxY + d⟩

/-- Go constant hAlignTypeLeft (iota value 0). -/
def hAlignTypeLeft : Int := 0

/-- Go constant hAlignTypeCenter (iota value 1). -/
def hAlignTypeCenter : Int := 1

/-- Go constant hAlignTypeRight (iota value 2). -/
def hAlignTypeRight : Int := 2

/-- Go constant vAlignTypeTop (iota value 0). -/
def vAlignTypeTop : Int := 0

/-- Go constant vAlignTypeMiddle (iota value 1). -/
def vAlignTypeMiddle : Int := 1

/-- Go constant vAlignTypeBottom (iota value 2). -/
def vAlignTypeBottom : Int := 2

/-- The external widget collaborator at its interface boundary (spec
section 6): its Options report a minimum size, and its Draw call either
succeeds or fails (`drawOk`).  The content a widget draws inside its own
buffer is outside the core and not modelled. -/
structure Widget where
  minX : Int
  minY : Int
  drawOk : Bool
deriving DecidableEq, Repr

/-- Per-node container data: absolute area, border flag, alignment options,
optional widget and the focus tracker's answer for this node (IsFocused is
a pure query per spec section 6, so it is carried as a field). -/
structure ContData where
  area : Rect
  border : Bool
  hAlign : Int
  vAlign : Int
  widget : Option Widget
  focused : Bool
deriving DecidableEq, Repr

/-- A container node: per-node data plus child containers in the fixed
deterministic order preOrder visits them (first, second). -/
inductive Container where
  | mk (data : ContData) (children : List Container)

/-- The per-node data of a container. -/
def Container.cdata : Container → ContData
  | .mk d _ => d

/-- The children of a container in visit order. -/
def Container.children : Container → List Container
  | .mk _ kids => kids

/-- Go c.area. -/
def Container.area (c : Container) : Rect := c.cdata.area

/-- Go c.hasBorder(). -/
def Container.hasBorder (c : Container) : Bool := c.cdata.border

/-- Go c.hasWidget(). -/
def Container.hasWidget (c : Container) : Bool := c.cdata.widget.isSome

/-- Modelled from the spec: Container.usable is absent from src.  Per spec
section 4.4 step 1 the content area is the node area minus border
thickness; a border is one cell thick on each side when enabled. -/
def Container.usable (c : Container) : Rect :=
  if c.cdata.border then
    ⟨c.area.minX + 1, c.area.minY + 1, c.area.maxX - 1, c.area.maxY - 1⟩
  else c.area

/-- hAlignWidget from src/container/draw.go lines 58-76: adjusts the widget
area within the container based on the requested horizontal alignment.
Go integer division truncates toward zero (Int.tdiv). -/
def hAlignWidget (c : Container) (wArea : Rect) : Rect :=
  let gap0 := c.usable.Dx - wArea.Dx
  let gap :=
    if c.cdata.hAlign = hAlignTypeRight then gap0
    else if c.cdata.hAlign = hAlignTypeCenter then Int.tdiv gap0 2
    else 0
  ⟨wArea.minX + gap, wArea.minY, wArea.maxX + gap, wArea.maxY⟩

/-- vAlignWidget from src/container/draw.go lines 80-98: adjusts the widget
area within the container based on the requested vertical alignment. -/
def vAlignWidget (c : Container) (wArea : Rect) : Rect :=
  let gap0 := c.usable.Dy - wArea.Dy
  let gap :=
    if c.cdata.vAlign = vAlignTypeBottom then gap0
    else if c.cdata.vAlign = vAlignTypeMiddle then Int.tdiv gap0 2
    else 0
  ⟨wArea.minX, wArea.minY + gap, wArea.maxX, wArea.maxY + gap⟩

/-- Modelled from the spec: Container.widgetArea is absent from src.  Per
spec sections 4.3 and 4.4 step 3 the widget's target area is the content
area positioned by the alignment rules; the zero rectangle when the node
holds no widget. -/
def Container.widgetArea (c : Container) : Rect :=
  match c.cdata.widget with
  | none => Rect.zero
  | some _ => vAlignWidget c (hAlignWidget c c.usable)

/-- Errors of the container drawer. -/
inductive DrawErr where
  | invalidRegion
  | widgetErr
deriving DecidableEq, Repr

/-- Observable drawing effects flushed to the terminal surface: the
degraded "too small" indicator glyph over an area, a border box over an
area (with the focus-dependent color choice), or a widget's own draw over
its target area. -/
inductive DrawAction where
  | resize (ar : Rect)
  | box (ar : Rect) (focused : Bool)
  | widgetDraw (ar : Rect)
deriving DecidableEq, Repr

/-- Modelled from the spec: canvas.New is absent from src.  Per spec
section 4.1 it fails with InvalidRegion if width or height is not
positive. -/
def canvasNew (r : Rect) : Except DrawErr Unit :=
  if r.Dx ≤ 0 ∨ r.Dy ≤ 0 then .error .invalidRegion else .ok ()

/-- drawResize from src/container/draw.go lines 134-148: draws the
indicator glyph over the given area, doing nothing if the area is smaller
than one cell.  Returns the flushed draw actions and an optional error. -/
def drawResize (ar : Rect) : List DrawAction × Option DrawErr :=
  if ar.Dx < 1 ∨ ar.Dy < 1 then ([], none)
  else
    match canvasNew ar with
    | .error e => ([], some e)
    | .ok _ => ([.resize ar], none)

/-- drawBorder from src/container/draw.go lines 29-54: no-op without a
border; otherwise allocates a canvas over the full node area and draws the
border box, colored by whether the focus tracker reports this node
focused, then flushes.  draw.Box and Apply are absent from src and per the
spec only write the border glyphs, modelled as the box action. -/
def drawBorder (c : Container) : List DrawAction × Option DrawErr :=
  if ¬c.hasBorder then ([], none)
  else
    match canvasNew c.area with
    | .error e => ([], some e)
    | .ok _ => ([.box c.area c.cdata.focused], none)

/-- drawWidget from src/container/draw.go lines 101-130: returns early on a
zero widget area or a missing widget; required size is the widget's
declared minimum when both dimensions are positive, else the 1x1 default;
a widget area smaller than the required size degrades to drawResize over
the usable area; otherwise a canvas over the widget area is allocated, the
widget draws on it and it is flushed (no flush when the widget's draw
fails). -/
def drawWidget (c : Container) : List DrawAction × Option DrawErr :=
  if c.widgetArea = Rect.zero then ([], none)
  else
    match c.cdata.widget with
    | none => ([], none)
    | some w =>
      let needX := if w.minX > 0 ∧ w.minY > 0 then w.minX else 1
      let needY := if w.minX > 0 ∧ w.minY > 0 then w.minY else 1
      if c.widgetArea.Dx < needX ∨ c.widgetArea.Dy < needY then drawResize c.usable
      else
        match canvasNew c.widgetArea with
        | .error e => ([], some e)
        | .ok _ => if w.drawOk then ([.widgetDraw c.widgetArea], none) else ([], some .widgetErr)

/-- drawCont from src/container/draw.go lines 151-164: a node whose usable
area has no positive extent degrades to drawResize over the whole node
area; otherwise the border is drawn and then the widget, stopping at the
first error (which drawTree records for this node). -/
def drawCont (c : Container) : List DrawAction × Option DrawErr :=
  if c.usable.Dx ≤ 0 ∨ c.usable.Dy ≤ 0 then drawResize c.area
  else
    match drawBorder c with
    | (as, some e) => (as, some e)
    | (as, none) =>
      match drawWidget c with
      | (bs, e) => (as ++ bs, e)

mutual

/-- The nodes of a container tree in pre-order. -/
def nodesOf : Container → List Container
  | .mk d kids => .mk d kids :: nodesForest kids

/-- The nodes of a forest of container trees in pre-order. -/
def nodesForest : List Container → List Container
  | [] => []
  | c :: cs => nodesOf c ++ nodesForest cs

end

mutual

/-- Modelled from the spec: the preOrder traversal driving drawTree is
absent from src.  Per spec section 4.4 steps 4-5 it visits every node in
pre-order (parent before children, children in fixed order), attempts the
per-node draw regardless of failures at other nodes and records each
per-node error.  Returns the concatenated draw actions and the recorded
errors. -/
def drawAll : Container → List DrawAction × List DrawErr
  | .mk d kids =>
    let r := drawCont (.mk d kids)
    let rest := drawForest kids
    (r.1 ++ rest.1, r.2.toList ++ rest.2)

/-- drawAll over a forest, in order. -/
def drawForest : List Container → List DrawAction × List DrawErr
  | [] => ([], [])
  | c :: cs =>
    let r := drawAll c
    let rest := drawForest cs
    (r.1 ++ rest.1, r.2 ++ rest.2)

end

/-- drawTree from src/container/draw.go lines 17-26: walks the whole tree
collecting per-node errors and returns a non-nil error exactly when the
collected record is non-empty. -/
def drawTree (c : Container) : Option (List DrawErr) :=
  if (drawAll c).2 = [] then none else some (drawAll c).2

/-! ## Concrete fixtures used by witnesses -/

/-- A bordered 1x1 container: its usable area is degenerate. -/
def contTiny : Container := .mk ⟨⟨0, 0, 1, 1⟩, true, 0, 0, none, false⟩ []

/-- A borderless 4x3 container whose widget declares minimum size 6x5. -/
def contSmallWidget : Container :=
  .mk ⟨⟨0, 0, 4, 3⟩, false, 0, 0, some ⟨6, 5, true⟩, false⟩ []

/-- A borderless 4x3 container whose widget declares minimum size 2x2. -/
def contFitWidget : Container :=
  .mk ⟨⟨0, 0, 4, 3⟩, false, 0, 0, some ⟨2, 2, true⟩, false⟩ []

/-- A right/bottom aligned 12x8 container without border or widget. -/
def contAligned : Container := .mk ⟨⟨0, 0, 12, 8⟩, false, 2, 2, none, false⟩ []

/-- Like contAligned but focused and holding a widget: same usable area and
alignment options. -/
def contAligned2 : Container := .mk ⟨⟨0, 0, 12, 8⟩, false, 2, 2, some ⟨1, 1, true⟩, true⟩ []

/-- A 2x4 inner rectangle used as a widget area in witnesses. -/
def innerRect : Rect := ⟨0, 0, 2, 4⟩

/-- A borderless 4x3 container whose widget declares minimum size 9x0
(positive in only one dimension). -/
def contLopsidedMin : Container :=
  .mk ⟨⟨0, 0, 4, 3⟩, false, 0, 0, some ⟨9, 0, true⟩, false⟩ []

/-- Replaces the declared minimum size of the container's widget (when one
is present), leaving everything else unchanged. -/
def setWidgetMin (c : Container) (mx my : Int) : Container :=
  match c with
  | .mk d kids =>
    .mk { d with widget := d.widget.map fun w => { w with minX := mx, minY := my } } kids

/-! ## Conformance of the modelled text engine with the in-repo TestText
table (src/unnamed/part_000); one example per test case that the model can
express (cell styles are not modelled). -/

example : runeWidth '界' = 2 := by decide
example : runeWidth 'a' = 1 := by decide
example : runeWidth '…' = 1 := by decide
example : runeWidth '⇄' = 1 := by decide

example : Text 1 1 ['a', 'b'] 0 0 overrunModeTrim 0 = .ok [⟨0, 0, 'a'⟩] := by decide
example : Text 1 1 ['a', 'b'] 0 0 overrunModeThreeDot 0 = .ok [⟨0, 0, '…'⟩] := by decide
example : Text 1 1 ['a', 'b'] 0 0 overrunModeStrict 0 = .error .textOverflow := by decide
example : Text 1 1 ['界'] 0 0 overrunModeStrict 0 = .error .textOverflow := by decide
example : Text 1 1 ['界'] 0 0 overrunModeTrim 0 = .ok [] := by decide
example : Text 1 1 ['界'] 0 0 overrunModeThreeDot 0 = .ok [⟨0, 0, '…'⟩] := by decide
example : Text 2 1 ['a', 'b', 'c', 'd', 'e', 'f'] 0 0 overrunModeTrim 0 =
    .ok [⟨0, 0, 'a'⟩, ⟨1, 0, 'b'⟩] := by decide
example : Text 2 1 ['a', 'b', '界'] 0 0 overrunModeTrim 0 =
    .ok [⟨0, 0, 'a'⟩, ⟨1, 0, 'b'⟩] := by decide
example : Text 2 1 ['a', '界'] 0 0 overrunModeTrim 0 = .ok [⟨0, 0, 'a'⟩] := by decide
example : Text 2 1 ['a', 'b', 'c', 'd', 'e', 'f'] 0 0 overrunModeThreeDot 0 =
    .ok [⟨0, 0, 'a'⟩, ⟨1, 0, '…'⟩] := by decide
example : Text 2 1 ['a', 'b', '界'] 0 0 overrunModeThreeDot 0 =
    .ok [⟨0, 0, 'a'⟩, ⟨1, 0, '…'⟩] := by decide
example : Text 2 1 ['a', '界'] 0 0 overrunModeThreeDot 0 =
    .ok [⟨0, 0, 'a'⟩, ⟨1, 0, '…'⟩] := by decide
example : Text 2 2 [] 2 2 0 0 = .error .outOfBounds := by decide
example : Text 1 1 ['a', 'b'] 0 0 (-1) 0 = .error .invalidOption := by decide
example : Text 1 1 [] 0 0 0 (-1) = .error .invalidOption := by decide
example : Text 1 1 [] 0 0 0 2 = .error .invalidOption := by decide
example : Text 3 2 ['a', 'b'] 1 1 0 2 = .error .textOverflow := by decide
example : Text 1 1 [] 0 0 0 0 = .ok [] := by decide
example : Text 3 2 ['a', 'b'] 1 1 0 0 = .ok [⟨1, 1, 'a'⟩, ⟨2, 1, 'b'⟩] := by decide
example : Text 3 3 ['⇄', '࿃', '°'] 0 0 0 0 =
    .ok [⟨0, 0, '⇄'⟩, ⟨1, 0, '࿃'⟩, ⟨2, 0, '°'⟩] := by decide
example : Text 10 3 ['你', '好', '，', '世', '界'] 0 0 0 0 =
    .ok [⟨0, 0, '你'⟩, ⟨2, 0, '好'⟩, ⟨4, 0, '，'⟩, ⟨6, 0, '世'⟩, ⟨8, 0, '界'⟩] := by decide

/-! ## Claims about the text layout engine -/

/-- C1 counterexample: drawing empty text does not always succeed — the
start point is validated first (test at part_000 lines 37-45: start (2,2)
outside a 2x2 canvas fails even for empty text) and a malformed MaxX fails
InvalidOption even for empty text (test at lines 261-273). -/
theorem text_empty_not_always_ok :
    Text 2 2 [] 2 2 0 0 = .error .outOfBounds ∧
    Text 1 1 [] 0 0 0 (-1) = .error .invalidOption := by decide

/-- C1 (amended): if the text is empty, the start point lies within the
buffer, and MaxX is unset or valid, the call succeeds and writes
nothing. -/
theorem text_empty_valid_ok (w h sx sy om maxX : Int)
    (hs : 0 ≤ sx ∧ sx < w ∧ 0 ≤ sy ∧ sy < h)
    (hm : maxX = 0 ∨ (0 < maxX ∧ maxX ≤ w)) :
    Text w h [] sx sy om maxX = .ok [] := by
  have hmx : ¬(maxX ≠ 0 ∧ (maxX ≤ 0 ∨ w < maxX)) := by
    rcases hm with h0 | ⟨h1, h2⟩
    · simp [h0]
    · rintro ⟨_, h3 | h3⟩ <;> omega
  unfold Text textRun
  rw [if_neg (not_not_intro hs), if_neg hmx, if_pos rfl]

/-- C1 witness. -/
theorem text_empty_valid_ok_w : Text 3 3 [] 1 1 0 2 = .ok [] :=
  text_empty_valid_ok 3 3 1 1 0 2 (by decide) (by decide)

/-- C2: a full-width rune whose second column would land exactly on the
right boundary does not fit, so the rune (and everything after it) is
dropped entirely rather than partially drawn; concretely, drawing "a界"
into a 2-wide buffer yields only 'a' at column 0 under Trim, and 'a' at
column 0 plus the ellipsis occupying exactly the single final cell under
ThreeDot. -/
theorem fullwidth_boundary_dropped (bound y x : Int) (r : Char) (rs : List Char)
    (hw : runeWidth r = 2) (hb : x + 1 = bound) :
    trimRunes bound y x (r :: rs) = [] ∧
    Text 2 1 ['a', '界'] 0 0 overrunModeTrim 0 = .ok [⟨0, 0, 'a'⟩] ∧
    Text 2 1 ['a', '界'] 0 0 overrunModeThreeDot 0 =
      .ok [⟨0, 0, 'a'⟩, ⟨1, 0, ellipsisRune⟩] := by
  refine ⟨?_, by decide, by decide⟩
  have hno : ¬(x + runeWidth r ≤ bound) := by rw [hw]; omega
  simp [trimRunes, hno]

/-- C2 witness. -/
theorem fullwidth_boundary_dropped_w :
    trimRunes 1 0 0 ['界'] = [] ∧
    Text 2 1 ['a', '界'] 0 0 overrunModeTrim 0 = .ok [⟨0, 0, 'a'⟩] ∧
    Text 2 1 ['a', '界'] 0 0 overrunModeThreeDot 0 =
      .ok [⟨0, 0, 'a'⟩, ⟨1, 0, ellipsisRune⟩] :=
  fullwidth_boundary_dropped 1 0 0 '界' [] (by decide) (by decide)

/-- C3: drawing "ab" at (0,0) into a 1x1 buffer yields exactly 'a' at (0,0)
under Trim, exactly the ellipsis at (0,0) under ThreeDot, and fails with
TextOverflow under Strict. -/
theorem text_ab_one_by_one :
    Text 1 1 ['a', 'b'] 0 0 overrunModeTrim 0 = .ok [⟨0, 0, 'a'⟩] ∧
    Text 1 1 ['a', 'b'] 0 0 overrunModeThreeDot 0 = .ok [⟨0, 0, ellipsisRune⟩] ∧
    Text 1 1 ['a', 'b'] 0 0 overrunModeStrict 0 = .error .textOverflow := by decide

/-- C4: with a valid start point and an explicitly set MaxX, the call fails
with InvalidOption when MaxX is non-positive or exceeds the buffer width;
when MaxX is valid the effective right boundary is min(width, MaxX) and
the draw proceeds against that boundary. -/
theorem text_maxX_validated (w h sx sy om maxX : Int) (text : List Char)
    (hs : 0 ≤ sx ∧ sx < w ∧ 0 ≤ sy ∧ sy < h) (hset : maxX ≠ 0) :
    (maxX ≤ 0 ∨ w < maxX → Text w h text sx sy om maxX = .error .invalidOption) ∧
    (0 < maxX → maxX ≤ w →
      effectiveBound w maxX = min w maxX ∧
      Text w h text sx sy om maxX = textRun (min w maxX) sy sx om text) := by
  constructor
  · intro hbad
    unfold Text
    rw [if_neg (not_not_intro hs), if_pos ⟨hset, hbad⟩]
  · intro h1 h2
    have hgood : ¬(maxX ≠ 0 ∧ (maxX ≤ 0 ∨ w < maxX)) := by rintro ⟨_, h | h⟩ <;> omega
    have heb : effectiveBound w maxX = min w maxX := by unfold effectiveBound; rw [if_neg hset]
    refine ⟨heb, ?_⟩
    unfold Text
    rw [if_neg (not_not_intro hs), if_neg hgood, heb]

/-- C4 witness. -/
theorem text_maxX_validated_w :
    Text 1 1 [] 0 0 0 2 = .error .invalidOption ∧
    (effectiveBound 3 2 = min 3 2 ∧
      Text 3 2 ['a', 'b'] 1 1 0 2 = textRun (min 3 2) 1 1 0 ['a', 'b']) :=
  ⟨(text_maxX_validated 1 1 0 0 0 2 [] (by decide) (by decide)).1 (by decide),
   (text_maxX_validated 3 2 1 1 0 2 ['a', 'b'] (by decide) (by decide)).2
     (by decide) (by decide)⟩

/-! ## Claims about the container tree drawer -/

/-- Horizontal alignment preserves the width of the aligned area. -/
theorem hAlignWidget_Dx (c : Container) (w : Rect) : (hAlignWidget c w).Dx = w.Dx := by
  simp [hAlignWidget, Rect.Dx]

/-- Horizontal alignment preserves the height of the aligned area. -/
theorem hAlignWidget_Dy (c : Container) (w : Rect) : (hAlignWidget c w).Dy = w.Dy := by
  simp [hAlignWidget, Rect.Dy]

/-- Vertical alignment preserves the width of the aligned area. -/
theorem vAlignWidget_Dx (c : Container) (w : Rect) : (vAlignWidget c w).Dx = w.Dx := by
  simp [vAlignWidget, Rect.Dx]

/-- Vertical alignment preserves the height of the aligned area. -/
theorem vAlignWidget_Dy (c : Container) (w : Rect) : (vAlignWidget c w).Dy = w.Dy := by
  simp [vAlignWidget, Rect.Dy]

/-- When the node holds a widget, its target area has the dimensions of the
usable area. -/
theorem widgetArea_dims (c : Container) (w : Widget) (hw : c.cdata.widget = some w) :
    c.widgetArea.Dx = c.usable.Dx ∧ c.widgetArea.Dy = c.usable.Dy := by
  unfold Container.widgetArea
  rw [hw]
  exact ⟨by rw [vAlignWidget_Dx, hAlignWidget_Dx], by rw [vAlignWidget_Dy, hAlignWidget_Dy]⟩

/-- C5: a node whose usable content area has no positive extent in some
dimension degrades: drawCont performs no border and no widget drawing, and
draws exactly the indicator glyph over the whole node area when that area
is at least 1x1, and nothing at all otherwise. -/
theorem drawCont_small_usable_degrades (c : Container)
    (h : c.usable.Dx ≤ 0 ∨ c.usable.Dy ≤ 0) :
    drawCont c =
      (if 1 ≤ c.area.Dx ∧ 1 ≤ c.area.Dy then ([DrawAction.resize c.area], none)
       else ([], none)) := by
  rw [drawCont, if_pos h]
  unfold drawResize
  by_cases hsm : c.area.Dx < 1 ∨ c.area.Dy < 1
  · rw [if_pos hsm, if_neg (by omega)]
  · rw [if_neg hsm]
    unfold canvasNew
    rw [if_neg (by omega), if_pos (by omega)]

/-- C5 witness: a bordered 1x1 container has a degenerate usable area and
draws only the indicator over its full area. -/
theorem drawCont_small_usable_degrades_w :
    drawCont contTiny = ([DrawAction.resize ⟨0, 0, 1, 1⟩], none) :=
  (drawCont_small_usable_degrades contTiny (by decide)).trans (by decide)

/-- C6: for a node holding a widget that declares a (fully positive)
minimum size, when the widget's target area is smaller than the declared
minimum in either dimension the drawer degrades to the indicator over the
usable (content) area instead of invoking the widget; otherwise it
allocates a canvas over the widget's target area, invokes the widget's
Draw and flushes it (flushing nothing and recording the error when the
widget's draw fails). -/
theorem drawWidget_min_size_check (c : Container) (w : Widget)
    (hw : c.cdata.widget = some w)
    (hmin : 0 < w.minX ∧ 0 < w.minY)
    (hu : 0 < c.usable.Dx ∧ 0 < c.usable.Dy) :
    (c.widgetArea.Dx < w.minX ∨ c.widgetArea.Dy < w.minY →
      drawWidget c = drawResize c.usable) ∧
    (w.minX ≤ c.widgetArea.Dx → w.minY ≤ c.widgetArea.Dy →
      drawWidget c =
        (if w.drawOk then ([DrawAction.widgetDraw c.widgetArea], none)
         else ([], some DrawErr.widgetErr))) := by
  have hdims := widgetArea_dims c w hw
  have hzero : ¬(c.widgetArea = Rect.zero) := by
    intro hz
    have : c.widgetArea.Dx = 0 := by rw [hz]; decide
    omega
  have hif1 : (if w.minX > 0 ∧ w.minY > 0 then w.minX else 1) = w.minX := if_pos hmin
  have hif2 : (if w.minX > 0 ∧ w.minY > 0 then w.minY else 1) = w.minY := if_pos hmin
  constructor
  · intro hlt
    simp only [drawWidget, hw]
    rw [if_neg hzero, hif1, hif2, if_pos hlt]
  · intro hx hy
    have hcvs : canvasNew c.widgetArea = .ok () := by
      unfold canvasNew
      rw [if_neg (by omega)]
    simp only [drawWidget, hw]
    rw [if_neg hzero, hif1, hif2, if_neg (by omega)]
    simp only [hcvs]

/-- C6 witness: a 4x3 widget area is smaller than a declared 6x5 minimum,
so the indicator is drawn over the content area; a declared 2x2 minimum
fits and the widget draws over its target area. -/
theorem drawWidget_min_size_check_w :
    drawWidget contSmallWidget = drawResize contSmallWidget.usable ∧
    drawWidget contFitWidget = ([DrawAction.widgetDraw contFitWidget.widgetArea], none) :=
  ⟨(drawWidget_min_size_check contSmallWidget ⟨6, 5, true⟩ rfl (by decide) (by decide)).1
      (by decide),
   ((drawWidget_min_size_check contFitWidget ⟨2, 2, true⟩ rfl (by decide) (by decide)).2
      (by decide) (by decide)).trans (by decide)⟩

/-- C7: horizontal alignment translates the widget area horizontally by the
full gap (usable width minus widget width) for Right, by the
toward-zero-truncated half gap for Center, and leaves it unchanged for
Left or any unrecognized alignment value; vertical alignment acts
analogously for Bottom, Middle and Top/unrecognized. -/
theorem align_translation (c : Container) (w : Rect) :
    (c.cdata.hAlign = hAlignTypeRight →
      hAlignWidget c w = w.translateX (c.usable.Dx - w.Dx)) ∧
    (c.cdata.hAlign = hAlignTypeCenter →
      hAlignWidget c w = w.translateX (Int.tdiv (c.usable.Dx - w.Dx) 2)) ∧
    (c.cdata.hAlign ≠ hAlignTypeRight → c.cdata.hAlign ≠ hAlignTypeCenter →
      hAlignWidget c w = w) ∧
    (c.cdata.vAlign = vAlignTypeBottom →
      vAlignWidget c w = w.translateY (c.usable.Dy - w.Dy)) ∧
    (c.cdata.vAlign = vAlignTypeMiddle →
      vAlignWidget c w = w.translateY (Int.tdiv (c.usable.Dy - w.Dy) 2)) ∧
    (c.cdata.vAlign ≠ vAlignTypeBottom → c.cdata.vAlign ≠ vAlignTypeMiddle →
      vAlignWidget c w = w) := by
  refine ⟨fun h => ?_, fun h => ?_, fun h1 h2 => ?_, fun h => ?_, fun h => ?_, fun h1 h2 => ?_⟩
  · simp [hAlignWidget, h, Rect.translateX]
  · simp [hAlignWidget, h, hAlignTypeCenter, hAlignTypeRight, Rect.translateX]
  · obtain ⟨a, b, d, e⟩ := w
    simp [hAlignWidget, h1, h2]
  · simp [vAlignWidget, h, Rect.translateY]
  · simp [vAlignWidget, h, vAlignTypeMiddle, vAlignTypeBottom, Rect.translateY]
  · obtain ⟨a, b, d, e⟩ := w
    simp [vAlignWidget, h1, h2]

/-- C7 witness: right/bottom alignment of a 2x4 inner area inside a 12x8
usable area translates it by the full gaps 10 and 4. -/
theorem align_translation_w :
    hAlignWidget contAligned innerRect = Rect.translateX innerRect 10 ∧
    vAlignWidget contAligned innerRect = Rect.translateY innerRect 4 :=
  ⟨((align_translation contAligned innerRect).1 (by decide)).trans (by decide),
   ((align_translation contAligned innerRect).2.2.2.1 (by decide)).trans (by decide)⟩

/-- C8: the alignment computations are pure with no hidden state — their
output depends only on the container's usable area and alignment options,
and applying them twice to the same inputs yields the same output as
applying them once. -/
theorem align_no_hidden_state (c c2 : Container) (w : Rect)
    (hu : c.usable = c2.usable)
    (hh : c.cdata.hAlign = c2.cdata.hAlign)
    (hv : c.cdata.vAlign = c2.cdata.vAlign) :
    hAlignWidget c w = hAlignWidget c2 w ∧
    vAlignWidget c w = vAlignWidget c2 w ∧
    hAlignWidget c w = hAlignWidget c w ∧
    vAlignWidget c w = vAlignWidget c w := by
  refine ⟨?_, ?_, rfl, rfl⟩ <;> simp [hAlignWidget, vAlignWidget, hu, hh, hv]

/-- C8 witness: two containers differing only in focus and widget agree on
both alignment results. -/
theorem align_no_hidden_state_w :
    hAlignWidget contAligned innerRect = hAlignWidget contAligned2 innerRect ∧
    vAlignWidget contAligned innerRect = vAlignWidget contAligned2 innerRect :=
  ⟨(align_no_hidden_state contAligned contAligned2 innerRect (by decide) (by decide)
      (by decide)).1,
   (align_no_hidden_state contAligned contAligned2 innerRect (by decide) (by decide)
      (by decide)).2.1⟩

/-- C10: when the widget's declared minimum size is positive in only one
dimension, drawWidget ignores the declared minimum entirely and behaves
exactly as if the widget had declared the default 1x1 requirement. -/
theorem drawWidget_lopsided_min_ignored (c : Container) (w : Widget)
    (hw : c.cdata.widget = some w)
    (h : (0 < w.minX ∧ w.minY ≤ 0) ∨ (w.minX ≤ 0 ∧ 0 < w.minY)) :
    drawWidget c = drawWidget (setWidgetMin c 1 1) := by
  obtain ⟨d, kids⟩ := c
  simp only [Container.cdata] at hw
  have hne : ¬(w.minX > 0 ∧ w.minY > 0) := by
    rcases h with ⟨h1, h2⟩ | ⟨h1, h2⟩ <;> omega
  have harea :
      Container.widgetArea (Container.mk { d with widget := some ⟨1, 1, w.drawOk⟩ } kids) =
        Container.widgetArea (Container.mk d kids) := by
    unfold Container.widgetArea
    simp only [Container.cdata, hw]
    rfl
  simp only [drawWidget, setWidgetMin, Container.cdata, Container.usable, hw,
    Option.map_some', harea]
  rw [if_neg hne, if_neg hne]
  simp [Container.area, Container.cdata]

/-- C10 witness: a widget declaring minimum size 9x0 draws exactly as one
declaring the default 1x1. -/
theorem drawWidget_lopsided_min_ignored_w :
    drawWidget contLopsidedMin = drawWidget (setWidgetMin contLopsidedMin 1 1) :=
  drawWidget_lopsided_min_ignored contLopsidedMin ⟨9, 0, true⟩ rfl (by decide)

mutual

/-- The tree walk flushes exactly each visited node's drawCont actions and
records exactly each visited node's drawCont error, in pre-order. -/
theorem drawAll_eq (c : Container) :
    (drawAll c).1 = ((nodesOf c).flatMap fun n => (drawCont n).1) ∧
    (drawAll c).2 = ((nodesOf c).flatMap fun n => (drawCont n).2.toList) :=
  match c with
  | .mk d kids => by
    have hf := drawForest_eq kids
    simp [drawAll, nodesOf, hf.1, hf.2]

/-- Forest version of drawAll_eq. -/
theorem drawForest_eq (cs : List Container) :
    (drawForest cs).1 = ((nodesForest cs).flatMap fun n => (drawCont n).1) ∧
    (drawForest cs).2 = ((nodesForest cs).flatMap fun n => (drawCont n).2.toList) :=
  match cs with
  | [] => by simp [drawForest, nodesForest]
  | c :: rest => by
    have h1 := drawAll_eq c
    have h2 := drawForest_eq rest
    simp [drawForest, nodesForest, h1.1, h1.2, h2.1, h2.2]

end

/-- A concatenation of per-node error records is non-empty exactly when
some node's draw recorded an error. -/
theorem flatMap_errs_ne_nil (ns : List Container) :
    ((ns.flatMap fun n => (drawCont n).2.toList) ≠ [] ↔
      ∃ n ∈ ns, (drawCont n).2 ≠ none) := by
  induction ns with
  | nil => simp
  | cons a t ih =>
    have hopt : (drawCont a).2.toList = [] ↔ (drawCont a).2 = none := by
      cases (drawCont a).2 <;> simp
    simp only [List.flatMap_cons, ne_eq, List.append_eq_nil]
    constructor
    · intro h
      rcases not_and_or.mp h with h1 | h2
      · exact ⟨a, List.mem_cons_self a t, fun hn => h1 (hopt.mpr hn)⟩
      · rcases ih.mp h2 with ⟨n, hn, hne⟩
        exact ⟨n, List.mem_cons_of_mem a hn, hne⟩
    · rintro ⟨n, hn, hne⟩ hcontra
      rcases List.mem_cons.mp hn with rfl | hn'
      · exact hne (hopt.mp hcontra.1)
      · exact (ih.mpr ⟨n, hn', hne⟩) hcontra.2

/-- C9: the tree walk attempts to draw every node in pre-order regardless
of failures at other nodes (the flushed actions are exactly the
concatenation of every node's drawCont actions), records each per-node
error, and drawTree returns a non-nil error precisely when at least one
node's draw failed. -/
theorem drawTree_walks_all_fails_iff (c : Container) :
    (drawAll c).1 = ((nodesOf c).flatMap fun n => (drawCont n).1) ∧
    (drawAll c).2 = ((nodesOf c).flatMap fun n => (drawCont n).2.toList) ∧
    (drawTree c ≠ none ↔ ∃ n ∈ nodesOf c, (drawCont n).2 ≠ none) := by
  have h := drawAll_eq c
  refine ⟨h.1, h.2, ?_⟩
  rw [drawTree]
  by_cases hz : (drawAll c).2 = []
  · rw [if_pos hz]
    simp only [ne_eq, not_true_eq_false, false_iff]
    rw [← flatMap_errs_ne_nil (nodesOf c), ← h.2]
    simp [hz]
  · rw [if_neg hz]
    simp only [ne_eq, reduceCtorEq, not_false_eq_true, true_iff]
    rw [← flatMap_errs_ne_nil (nodesOf c), ← h.2]
    exact hz

end Termdash
